import Mathlib

/-!
# redis-nextra: shallow embedding and verification

This file embeds the two core source files of the `redis-nextra` repository —
the shard router `ServerManager` (src/unnamed/part_000) and the protocol
transport `Connection` (src/src/Connection.js) — as executable Lean
definitions, and settles the specification claims about them.

Conventions: JavaScript strings are Lean `String`s; byte buffers are
`List Nat`; the promise created by each `sendCommand` call and each pending
result handle is identified by a natural number.  External collaborators that
are not part of the repository sources (the `consistent` hash ring, the
`hiredis` reply decoder, the `OfflineQueue`) are modelled from the spec, as
marked in their doc comments.
-/

namespace RedisNextra

/-! ## Hash-tag extraction (src/unnamed/part_000, `serverNameForKey`, lines 130–146)

The JS loop scans for the first open brace; if one is found it scans the
following characters for the first close brace, and when found replaces the
key with the substring strictly between the two braces (`substring(i+1, j)`).
`afterOpen` returns the characters strictly after the first open brace,
`beforeClose` the characters strictly before the first close brace. -/

/-- Characters strictly after the first open brace `U+007B`, if any. -/
def afterOpen : List Char → Option (List Char)
  | [] => none
  | c :: rest => if c = '\x7b' then some rest else afterOpen rest

/-- Characters strictly before the first close brace `U+007D`, if any. -/
def beforeClose : List Char → Option (List Char)
  | [] => none
  | c :: rest =>
    if c = '\x7d' then some []
    else (beforeClose rest).map (fun tail => c :: tail)

/-- The hashing key the JS loop in `serverNameForKey` computes: the substring
strictly between the first open brace and the first close brace after it, and
otherwise the whole key. -/
def extractHashKey (key : String) : String :=
  match afterOpen key.data with
  | none => key
  | some rest =>
    match beforeClose rest with
    | none => key
    | some tag => ⟨tag⟩

/-! ## Consistent-hash ring

Modelled from the spec: the `consistent` package (an external collaborator,
§3 "Ring") keeps a list of weighted members keyed by server identity and
resolves a shard key to the identity of the member owning the key's hash
position; `getCached` is its cached lookup. The lookup picks the member whose
ring position is closest clockwise from the hashed key; weights only
replicate points and are irrelevant to the claims, so they are carried but
not consulted. -/

structure RingMember where
  key : String
  weight : Nat := 1
deriving DecidableEq, Repr

structure Ring where
  members : List RingMember
  hash : String → Nat

def ringSpan : Nat := 4294967296

/-- Clockwise distance from the hashed lookup key to a member's position. -/
def ringScore (rg : Ring) (h : Nat) (m : RingMember) : Nat :=
  (rg.hash m.key + ringSpan - h % ringSpan) % ringSpan

/-- Modelled from the spec: cached ring lookup of the `consistent` package.
Empty ring yields no identity; otherwise the member minimising the clockwise
distance from the hashed key wins. -/
def Ring.getCached (rg : Ring) (k : String) : Option String :=
  match rg.members with
  | [] => none
  | m :: ms =>
    some ((ms.foldl (fun best x =>
      if ringScore rg (rg.hash k) x < ringScore rg (rg.hash k) best then x else best) m).key)

/-- `serverNameForKey` (src/unnamed/part_000 lines 130–146): stringify the
key, run the hash-tag scan, look the result up in the ring. -/
def serverNameForKey (rg : Ring) (key : String) : Option String :=
  rg.getCached (extractHashKey key)

/-! ### Lemmas about the hash-tag scan -/

lemma afterOpen_append_of_no_open (xs ys : List Char) (h : '\x7b' ∉ xs) :
    afterOpen (xs ++ ys) = afterOpen ys := by
  induction xs with
  | nil => rfl
  | cons c rest ih =>
    have hc : c ≠ '\x7b' := by
      intro hc; exact h (hc ▸ List.mem_cons_self c rest)
    have hrest : '\x7b' ∉ rest := fun hm => h (List.mem_cons_of_mem c hm)
    simp [afterOpen, hc, ih hrest]

lemma afterOpen_eq_none_of_no_open (xs : List Char) (h : '\x7b' ∉ xs) :
    afterOpen xs = none := by
  induction xs with
  | nil => rfl
  | cons c rest ih =>
    have hc : c ≠ '\x7b' := by
      intro hc; exact h (hc ▸ List.mem_cons_self c rest)
    have hrest : '\x7b' ∉ rest := fun hm => h (List.mem_cons_of_mem c hm)
    simp [afterOpen, hc, ih hrest]

lemma beforeClose_append_close (xs ys : List Char) (h : '\x7d' ∉ xs) :
    beforeClose (xs ++ '\x7d' :: ys) = some xs := by
  induction xs with
  | nil => simp [beforeClose]
  | cons c rest ih =>
    have hc : c ≠ '\x7d' := by
      intro hc; exact h (hc ▸ List.mem_cons_self c rest)
    have hrest : '\x7d' ∉ rest := fun hm => h (List.mem_cons_of_mem c hm)
    simp [beforeClose, hc, ih hrest]

lemma beforeClose_eq_none_of_no_close (xs : List Char) (h : '\x7d' ∉ xs) :
    beforeClose xs = none := by
  induction xs with
  | nil => rfl
  | cons c rest ih =>
    have hc : c ≠ '\x7d' := by
      intro hc; exact h (hc ▸ List.mem_cons_self c rest)
    have hrest : '\x7d' ∉ rest := fun hm => h (List.mem_cons_of_mem c hm)
    simp [beforeClose, hc, ih hrest]

lemma string_data_append (a b : String) : (a ++ b).data = a.data ++ b.data := rfl

lemma string_mk_data (s : String) : String.mk s.data = s := by
  cases s; rfl

lemma extractHashKey_tag (a t b : String)
    (hA : '\x7b' ∉ a.data) (hT : '\x7d' ∉ t.data) :
    extractHashKey (a ++ "\x7b" ++ t ++ "\x7d" ++ b) = t := by
  have hdata : (a ++ "\x7b" ++ t ++ "\x7d" ++ b).data
      = a.data ++ '\x7b' :: (t.data ++ '\x7d' :: b.data) := by
    simp [string_data_append]
  unfold extractHashKey
  rw [hdata, afterOpen_append_of_no_open _ _ hA]
  simp [afterOpen, beforeClose_append_close _ _ hT, string_mk_data]

lemma extractHashKey_no_open (k : String) (h : '\x7b' ∉ k.data) :
    extractHashKey k = k := by
  unfold extractHashKey
  rw [afterOpen_eq_none_of_no_open _ h]

lemma extractHashKey_unclosed (a c : String)
    (hA : '\x7b' ∉ a.data) (hC : '\x7d' ∉ c.data) :
    extractHashKey (a ++ "\x7b" ++ c) = a ++ "\x7b" ++ c := by
  have hdata : (a ++ "\x7b" ++ c).data = a.data ++ '\x7b' :: c.data := by
    simp [string_data_append]
  unfold extractHashKey
  rw [hdata, afterOpen_append_of_no_open _ _ hA]
  simp [afterOpen, beforeClose_eq_none_of_no_close _ hC]

/-! ## JavaScript values

`sendCommand` receives arbitrary JS arguments; the dispatch logic only ever
distinguishes arrays from non-arrays (the single-array unwrap) and
stringifies the key argument.  `JSVal.obj` stands for a plain non-array
object such as a `{resolve, reject}` result handle, identified by number. -/

inductive JSVal where
  | str (s : String)
  | num (n : Int)
  | list (xs : List JSVal)
  | obj (id : Nat)

mutual

/-- JS `String(v)`: identity on strings, decimal on numbers, comma-joined
elements on arrays, `"[object Object]"` on plain objects. -/
def jsToString : JSVal → String
  | .str s => s
  | .num n => toString n
  | .list xs => String.intercalate "," (jsToStringList xs)
  | .obj _ => "[object Object]"

def jsToStringList : List JSVal → List String
  | [] => []
  | v :: vs => jsToString v :: jsToStringList vs

end

/-- JS `String(v)` where `v` may be `undefined` (an out-of-bounds index). -/
def jsToStringU : Option JSVal → String
  | none => "undefined"
  | some v => jsToString v

/-! ## Shard router: `ServerManager.sendCommand` (src/unnamed/part_000 lines 103–123) -/

/-- A command-table descriptor (external collaborator, spec §6): the code
checks `command.supported !== false`, an optional key argument index and an
optional custom router (modelled as an opaque identifier). -/
structure CommandDesc where
  supported : Bool := true
  key : Option Nat := none
  router : Option Nat := none
deriving DecidableEq, Repr

/-- An offline-queue entry. Modelled from the spec: `OfflineQueue` is a
repository file not under src/; spec §3 gives the entry shape
`(command name, argument list, ResultHandle)` and §6 gives
`push(cmd, args, handle)` / one-shot `drain()`. The handle is the identity of
the original pending promise. -/
structure OQEntry where
  cmd : String
  args : List JSVal
  handle : Nat

/-- The `ServerManager` state consulted by `sendCommand`. -/
structure SMState where
  ended : Bool := false
  offlineQueue : Option (List OQEntry) := none
  ring : Ring
  commands : String → Option CommandDesc

/-- The observable outcome of one `sendCommand` call.  Each call creates a
fresh promise; `handle` is that promise's identity, i.e. the result handle
the action settles or forwards. -/
inductive Action where
  | reject (handle : Nat) (msg : String)
  | queued (handle : Nat) (cmd : String) (rawArgs : List JSVal)
  | customRoute (handle : Nat) (router : Nat) (args : List JSVal)
  | sendToServer (handle : Nat) (name : Option String) (cmd : String) (args : List JSVal)

/-- The result handle a dispatched action settles or carries onward. -/
def Action.handleOf : Action → Nat
  | .reject h _ => h
  | .queued h _ _ => h
  | .customRoute h _ _ => h
  | .sendToServer h _ _ _ => h

/-- The single-array unwrap: `if (args.length === 1 && Array.isArray(args[0])) [args] = args`. -/
def unwrapArgs : List JSVal → List JSVal
  | [JSVal.list xs] => xs
  | xs => xs

/-- `sendCommand(cmd, ...args)` (src/unnamed/part_000 lines 103–123), with
`fresh` the identity of the promise the call creates.  Checked in order:
ended client, offline queue, command descriptor with custom router, then
single-member ring, then key-addressed routing, else CommandNotSupported. -/
def sendCommand (st : SMState) (fresh : Nat) (cmd : String) (rawArgs : List JSVal) : Action :=
  if st.ended then .reject fresh "Client has been ended."
  else
    match st.offlineQueue with
    | some _ => .queued fresh cmd rawArgs
    | none =>
      let args := unwrapArgs rawArgs
      match st.commands cmd with
      | some command =>
        if command.supported then
          match command.router with
          | some r => .customRoute fresh r args
          | none =>
            match st.ring.members with
            | [m] => .sendToServer fresh (serverNameForKey st.ring m.key) cmd args
            | _ =>
              match command.key with
              | some k =>
                .sendToServer fresh (serverNameForKey st.ring (jsToStringU (args.get? k))) cmd args
              | none => .reject fresh ("Command not supported: " ++ cmd)
        else .reject fresh ("Command not supported: " ++ cmd)
      | none => .reject fresh ("Command not supported: " ++ cmd)

/-- The offline-queue drain in `connect` (src/unnamed/part_000 lines
232–237): the queue is deleted, then every drained entry is re-submitted via
`this.sendCommand(...entry)` — the entry tuple is spread, so `sendCommand`
receives `cmd` and the rest (`[args, handle]`) as its variadic arguments, and
the promise each call returns is discarded.  `freshBase + i` identifies the
fresh promise of the i-th re-submission. -/
def drainDispatch (st : SMState) (entries : List OQEntry) (freshBase : Nat) : List Action :=
  let cleared := { st with offlineQueue := none }
  entries.enum.map (fun p =>
    sendCommand cleared (freshBase + p.1) p.2.cmd [JSVal.list p.2.args, JSVal.obj p.2.handle])

/-! ## Byte-level strings

`Buffer.byteLength` and the byte sequence a string write puts on the socket
are UTF-8; `charUtf8` is the UTF-8 encoding of one code point as numbers. -/

def charUtf8 (c : Char) : List Nat :=
  let n := c.toNat
  if n < 128 then [n]
  else if n < 2048 then [192 + n / 64, 128 + n % 64]
  else if n < 65536 then [224 + n / 4096, 128 + n / 64 % 64, 128 + n % 64]
  else [240 + n / 262144, 128 + n / 4096 % 64, 128 + n / 64 % 64, 128 + n % 64]

/-- The UTF-8 bytes of a string (`Buffer.byteLength` counts these). -/
def strBytes (s : String) : List Nat :=
  (s.data.map charUtf8).flatten

lemma strBytes_append (a b : String) : strBytes (a ++ b) = strBytes a ++ strBytes b := by
  simp [strBytes, string_data_append]

/-! ## Protocol transport: `Connection` (src/src/Connection.js) -/

def crlf : String := "\r\n"

/-- One argument of a command `pack`: either a binary `Buffer` (written
verbatim) or text (anything else, already stringified by `String(item)`). -/
inductive Item where
  | buf (bytes : List Nat)
  | txt (s : String)
deriving DecidableEq, Repr

/-- One `this.stream.write(...)` call: a string chunk or a buffer chunk. -/
inductive Chunk where
  | cs (s : String)
  | cb (bytes : List Nat)
deriving DecidableEq, Repr

/-- The bytes a chunk puts on the socket. -/
def Chunk.bytes : Chunk → List Nat
  | .cs s => strBytes s
  | .cb b => b

/-- The header `*<argc+1>\r\n$<len(cmd)>\r\n<cmd>\r\n` (Connection.js line
63; `cmd.length` is the JS string length — command names are ASCII). -/
def writeHeader (cmd : String) (argc : Nat) : String :=
  "*" ++ toString (argc + 1) ++ crlf ++ "$" ++ toString cmd.length ++ crlf ++ cmd ++ crlf

/-- The bulk frame appended for one textual argument:
`$<Buffer.byteLength(item)>\r\n<item>\r\n` (Connection.js line 79). -/
def bulkTxt (s : String) : String :=
  "$" ++ toString (strBytes s).length ++ crlf ++ s ++ crlf

/-- The loop of `Connection.write` (lines 65–83): textual arguments are
batched into the pending `command` string; a buffer argument flushes the
pending string (if truthy, i.e. non-empty), then writes its own length
prefix, the buffer and a trailing CRLF; the pending string is flushed at the
end if non-empty. -/
def writeLoop : List Item → String → List Chunk
  | [], command => if command = "" then [] else [Chunk.cs command]
  | Item.buf b :: rest, command =>
    (if command = "" then [] else [Chunk.cs command]) ++
      Chunk.cs ("$" ++ toString b.length ++ crlf) :: Chunk.cb b :: Chunk.cs crlf ::
        writeLoop rest ""
  | Item.txt s :: rest, command => writeLoop rest (command ++ bulkTxt s)

/-- The sequence of stream writes `Connection.write(cmd, pack, handler)`
emits. -/
def writeChunks (cmd : String) (pack : List Item) : List Chunk :=
  writeLoop pack (writeHeader cmd pack.length)

/-- The wire frame the spec prescribes for one argument, as bytes. -/
def itemBulkBytes : Item → List Nat
  | Item.buf b => strBytes ("$" ++ toString b.length ++ crlf) ++ b ++ strBytes crlf
  | Item.txt s => strBytes (bulkTxt s)

/-! ### Transport state machine -/

/-- A decoded reply: `hiredis` yields error replies as `Error` instances and
everything else as plain values (restricted here to strings). -/
inductive Reply where
  | str (s : String)
  | err (msg : String)
deriving DecidableEq, Repr

/-- A pending handler is either a bare function (called as
`handler(err)` / `handler(null, response)`) or a `{resolve, reject}`
object; `id` is its identity. -/
inductive HKind where
  | fn
  | obj
deriving DecidableEq, Repr

structure Handler where
  id : Nat
  kind : HKind
deriving DecidableEq, Repr

/-- The mutable state of one `Connection`. `retryTimer` is whether the
reconnect timer is armed; `reader` is the decoder's buffered input. -/
structure ConnState where
  host : String
  ended : Bool := false
  connected : Bool := false
  reconnecting : Bool := false
  retryTimer : Bool := false
  handlers : List Handler := []
  reader : String := ""
deriving DecidableEq, Repr

/-- An observable effect of one transport step. `crash` marks a thrown
`TypeError` from accessing `.reject`/`.resolve` on a value that has no such
member (a bare function or `undefined`). -/
inductive Notice where
  | resolved (id : Nat) (r : Reply)
  | rejected (id : Nat) (msg : String)
  | fnReply (id : Nat) (r : Reply)
  | fnError (id : Nat) (msg : String)
  | connError (msg : String)
  | emitted (name : String)
  | streamEnd
  | destroyed
  | timerSet
  | crash
deriving DecidableEq, Repr

/-- `Connection.end` (lines 90–99): a second call returns at once; otherwise
the socket is ended, the flags set, `end` emitted, and the retry timer
cleared. -/
def endConn (st : ConnState) : ConnState × List Notice :=
  if st.ended then (st, [])
  else
    ({ st with ended := true, connected := false, retryTimer := false },
      [Notice.streamEnd, Notice.emitted "end"])

def lostMsg (host : String) : String := "Server connection lost to " ++ host

/-- The rejection loop of `_connectionLost` (lines 153–156): each handler in
order gets `handler.reject(error)`; a bare-function handler is first invoked
with the error and then the `.reject` access throws, stopping the loop.  The
boolean reports whether the loop threw. -/
def notifyLost (host : String) : List Handler → List Notice × Bool
  | [] => ([], false)
  | h :: rest =>
    match h.kind with
    | HKind.fn => ([Notice.fnError h.id (lostMsg host), Notice.crash], true)
    | HKind.obj =>
      let tail := notifyLost host rest
      (Notice.rejected h.id (lostMsg host) :: tail.1, tail.2)

/-- `Connection._connectionLost(reason)` (lines 147–166).  When the loop
throws, the exception propagates before `this.handlers = []` and the timer
arming run, so the handler queue survives and no timer is set. -/
def connectionLost (st : ConnState) (reason : String) : ConnState × List Notice :=
  if st.ended || st.reconnecting then (st, [])
  else
    let st1 := { st with connected := false, reconnecting := true }
    let notified := notifyLost st.host st.handlers
    if notified.2 then (st1, notified.1)
    else
      ({ st1 with handlers := [], retryTimer := true },
        notified.1 ++ [Notice.emitted "reconnect", Notice.emitted ("debug:" ++ reason),
          Notice.timerSet])

/-- `Connection.write` (lines 60–84) as a state transition: the handler is
pushed onto the pending queue and the frame chunks are written; there is no
`ended` check. -/
def connWrite (st : ConnState) (cmd : String) (pack : List Item) (h : Handler) :
    ConnState × List Chunk :=
  ({ st with handlers := st.handlers ++ [h] }, writeChunks cmd pack)

/-! ### Reply decoding -/

/-- Split a character list at the first CRLF: content before it and rest
after it, or `none` when no CRLF has arrived yet. -/
def splitCRLF : List Char → Option (List Char × List Char)
  | [] => none
  | '\r' :: '\n' :: rest => some ([], rest)
  | c :: rest => (splitCRLF rest).map (fun p => (c :: p.1, p.2))

/-- Modelled from the spec: one `reader.get()` call of the incremental
`hiredis` decoder (an external collaborator), restricted to RESP simple
strings (`+`) and error replies (`-`).  Returns the next complete reply and
the remaining buffered input, `none` while the reply is incomplete, or a
parser error on an unexpected type byte. -/
def readerGet (buf : String) : Except String (Option Reply × String) :=
  match buf.data with
  | [] => Except.ok (none, buf)
  | '+' :: rest =>
    match splitCRLF rest with
    | none => Except.ok (none, buf)
    | some (content, remaining) => Except.ok (some (Reply.str ⟨content⟩), ⟨remaining⟩)
  | '-' :: rest =>
    match splitCRLF rest with
    | none => Except.ok (none, buf)
    | some (content, remaining) => Except.ok (some (Reply.err ⟨content⟩), ⟨remaining⟩)
  | _ => Except.error "Protocol error, got unexpected type byte"

/-- The `data` listener (lines 120–138): feed the chunk, call `reader.get()`
once; a decoder exception emits a connection error and destroys the socket; an
undefined response returns; otherwise the oldest handler is shifted and the
reply dispatched — error replies via `handler.reject` (a `TypeError` when the
handler is a bare function or the queue was empty), other replies via the
function call or `handler.resolve`. -/
def onData (st : ConnState) (chunk : String) : ConnState × List Notice :=
  let buf := st.reader ++ chunk
  match readerGet buf with
  | Except.error e =>
    ({ st with reader := buf },
      [Notice.connError ("Parser error: " ++ e), Notice.destroyed])
  | Except.ok (none, rest) => ({ st with reader := rest }, [])
  | Except.ok (some r, rest) =>
    match st.handlers with
    | [] => ({ st with reader := rest }, [Notice.crash])
    | h :: hs =>
      let st' := { st with reader := rest, handlers := hs }
      match r with
      | Reply.err m =>
        match h.kind with
        | HKind.obj => (st', [Notice.rejected h.id m])
        | HKind.fn => (st', [Notice.crash])
      | Reply.str s =>
        match h.kind with
        | HKind.fn => (st', [Notice.fnReply h.id (Reply.str s)])
        | HKind.obj => (st', [Notice.resolved h.id (Reply.str s)])

/-! ## Supporting lemmas and concrete states -/

lemma strBytes_empty : strBytes "" = [] := rfl

lemma notifyLost_all_obj (host : String) (hs : List Handler)
    (h : ∀ x ∈ hs, x.kind = HKind.obj) :
    notifyLost host hs = (hs.map (fun x => Notice.rejected x.id (lostMsg host)), false) := by
  induction hs with
  | nil => rfl
  | cons x rest ih =>
    have hx : x.kind = HKind.obj := h x (List.mem_cons_self x rest)
    have hrest : ∀ y ∈ rest, y.kind = HKind.obj := fun y hy => h y (List.mem_cons_of_mem x hy)
    simp [notifyLost, hx, ih hrest]

lemma getCached_singleton (rg : Ring) (m : RingMember) (hM : rg.members = [m]) (k : String) :
    rg.getCached k = some m.key := by
  unfold Ring.getCached
  rw [hM]
  rfl

lemma writeLoop_bytes (items : List Item) (command : String) :
    ((writeLoop items command).map Chunk.bytes).flatten
      = strBytes command ++ (items.map itemBulkBytes).flatten := by
  induction items generalizing command with
  | nil =>
    by_cases hc : command = ""
    · simp [writeLoop, hc, strBytes_empty]
    · simp [writeLoop, hc, Chunk.bytes]
  | cons item rest ih =>
    cases item with
    | buf b =>
      by_cases hc : command = ""
      · simp [writeLoop, hc, Chunk.bytes, ih, itemBulkBytes, strBytes_empty,
          List.append_assoc]
      · simp [writeLoop, hc, Chunk.bytes, ih, itemBulkBytes, strBytes_empty,
          List.append_assoc]
    | txt s =>
      simp [writeLoop, ih, itemBulkBytes, strBytes_append, List.append_assoc]

/-- A djb2-style hash standing in for murmurhash; the routing claims never
depend on particular hash values. -/
def smHash (s : String) : Nat :=
  (strBytes s).foldl (fun a b => (a * 33 + b) % ringSpan) 5381

def smCmds : String → Option CommandDesc :=
  fun c => if c = "GET" then some { key := some 0 } else none

def smRing : Ring := { members := [{ key := "s1:6379" }], hash := smHash }

/-- A live single-server manager state with a key-addressed `GET` command. -/
def smSt : SMState := { ring := smRing, commands := smCmds }

/-- A connected transport with two object handlers pending. -/
def dSt0 : ConnState :=
  { host := "h", connected := true,
    handlers := [⟨1, HKind.obj⟩, ⟨2, HKind.obj⟩] }

/-- An ended transport. -/
def eSt0 : ConnState := { host := "h", ended := true }

/-- A live transport with two object handlers pending (loss-signal tests). -/
def cSt0 : ConnState :=
  { host := "h", connected := true,
    handlers := [⟨1, HKind.obj⟩, ⟨2, HKind.obj⟩] }

/-- A connected transport with one object handler pending. -/
def pSt0 : ConnState := { host := "h", connected := true, handlers := [⟨1, HKind.obj⟩] }

/-- A connected transport whose pending handler is a bare function. -/
def fSt0 : ConnState := { host := "h", connected := true, handlers := [⟨9, HKind.fn⟩] }

/-! ## Claims -/

/-- C1: the claim says `serverNameForKey` hashes the whole original string
for a key with an empty hash tag, so the routing key of `"foo{}"` would be
`"foo{}"`.  The code has no non-emptiness check on the tag: the scan in
src/unnamed/part_000 lines 133–143 replaces the key with the (empty)
substring between the braces, so the hashing key of `"foo{}"` is `""` and
not the full string. -/
theorem c1_empty_tag_hashes_empty_string :
    extractHashKey "foo\x7b\x7d" = "" ∧ extractHashKey "foo\x7b\x7d" ≠ "foo\x7b\x7d" :=
  ⟨rfl, by decide⟩

/-- C2: the claim says that feeding bytes from which the decoder yields N
replies resolves all N pending handles even when several complete replies
arrive in one data chunk.  The `data` listener calls `reader.get()` exactly
once per chunk (Connection.js line 125), so a single chunk carrying two
complete replies resolves only the oldest handle: the second reply stays in
the decoder buffer and its handle stays pending. -/
theorem c2_coalesced_replies_resolve_only_first :
    onData dSt0 ("+OK" ++ crlf ++ "+B" ++ crlf)
      = ({ dSt0 with reader := "+B" ++ crlf, handlers := [⟨2, HKind.obj⟩] },
          [Notice.resolved 1 (Reply.str "OK")]) :=
  rfl

/-- C3: the claim says each drained offline-queue entry is re-submitted
through `sendCommand` so that an offline-queued unsupported command rejects
its original result handle with CommandNotSupported.  The drain in `connect`
(src/unnamed/part_000 line 236) spreads the entry tuple into
`sendCommand(...entry)`: the original argument list and the original handle
arrive as the variadic arguments of a fresh call whose promise is discarded.
The CommandNotSupported rejection therefore lands on the fresh promise
(handle 100 below), never on the original handle (7), and even a supported
entry is dispatched with the mangled argument list. -/
theorem c3_drain_discards_original_handle :
    drainDispatch smSt [⟨"FOO", [JSVal.str "k"], 7⟩] 100
        = [Action.reject 100 "Command not supported: FOO"]
    ∧ drainDispatch smSt [⟨"GET", [JSVal.str "k"], 7⟩] 100
        = [Action.sendToServer 100 (some "s1:6379") "GET"
            [JSVal.list [JSVal.str "k"], JSVal.obj 7]] :=
  ⟨rfl, rfl⟩

/-- C4 counterexample: the claim says that after `end()` no public operation,
including `write(cmd, pack, handler)`, mutates the connection state.
`Connection.write` has no `ended` guard: on an ended connection it still
pushes the handler onto the pending queue, changing the state. -/
theorem c4_counterexample_write_after_end :
    (connWrite eSt0 "PING" [] ⟨1, HKind.obj⟩).1 ≠ eSt0 := by
  decide

/-- C4 (amended): after `end()`, a second `end()` returns without doing
anything and a connection-loss signal is ignored (no state change, no timer);
but `write` is not guarded: it still appends the handler to the pending queue
and emits the frame bytes on the socket. -/
theorem c4_after_end_noops (st : ConnState) (hEnd : st.ended = true)
    (reason cmd : String) (pack : List Item) (h : Handler) :
    endConn st = (st, [])
    ∧ connectionLost st reason = (st, [])
    ∧ connWrite st cmd pack h
        = ({ st with handlers := st.handlers ++ [h] }, writeChunks cmd pack) := by
  refine ⟨?_, ?_, rfl⟩
  · simp [endConn, hEnd]
  · simp [connectionLost, hEnd]

/-- C4 witness: the amended statement at the concrete ended state `eSt0`. -/
theorem c4_after_end_noops_witness :
    endConn eSt0 = (eSt0, [])
    ∧ connectionLost eSt0 "close" = (eSt0, [])
    ∧ connWrite eSt0 "PING" [] ⟨1, HKind.obj⟩
        = ({ eSt0 with handlers := eSt0.handlers ++ [⟨1, HKind.obj⟩] },
            writeChunks "PING" []) :=
  c4_after_end_noops eSt0 rfl "close" "PING" [] ⟨1, HKind.obj⟩

/-- C5: hash-tag extraction.  When the first open brace is followed by a
close brace and the substring strictly between them is non-empty, that
substring is the hashing key; a key with no open brace, or whose first open
brace is never closed, hashes as the whole original string. -/
theorem c5_hash_tag_extraction (a t b k u c : String)
    (hA : '\x7b' ∉ a.data) (hT : '\x7d' ∉ t.data) (_hNE : t ≠ "")
    (hK : '\x7b' ∉ k.data) (hU : '\x7b' ∉ u.data) (hC : '\x7d' ∉ c.data) :
    extractHashKey (a ++ "\x7b" ++ t ++ "\x7d" ++ b) = t
    ∧ extractHashKey k = k
    ∧ extractHashKey (u ++ "\x7b" ++ c) = u ++ "\x7b" ++ c :=
  ⟨extractHashKey_tag a t b hA hT, extractHashKey_no_open k hK,
    extractHashKey_unclosed u c hU hC⟩

/-- C5 witness: `"foo{bar}baz"` extracts `"bar"`, `"plainkey"` stays whole,
and an unclosed brace key stays whole. -/
theorem c5_hash_tag_extraction_witness :
    extractHashKey ("foo" ++ "\x7b" ++ "bar" ++ "\x7d" ++ "baz") = "bar"
    ∧ extractHashKey "plainkey" = "plainkey"
    ∧ extractHashKey ("a" ++ "\x7b" ++ "bc") = "a" ++ "\x7b" ++ "bc" :=
  c5_hash_tag_extraction "foo" "bar" "baz" "plainkey" "a" "bc"
    (by decide) (by decide) (by decide) (by decide) (by decide) (by decide)

/-- C6: two loss signals in succession on a live connection reject the
pending handles and arm the reconnect timer exactly once: the first signal
rejects each pending handle once and arms the timer, and the second signal,
arriving while the connection is already reconnecting, returns with the state
unchanged and no effects. -/
theorem c6_connection_lost_idempotent (st : ConnState) (r₁ r₂ : String)
    (hEnd : st.ended = false) (hRec : st.reconnecting = false)
    (hObj : ∀ x ∈ st.handlers, x.kind = HKind.obj) :
    (connectionLost st r₁).2
        = st.handlers.map (fun x => Notice.rejected x.id (lostMsg st.host))
          ++ [Notice.emitted "reconnect", Notice.emitted ("debug:" ++ r₁), Notice.timerSet]
    ∧ (connectionLost st r₁).1.retryTimer = true
    ∧ (connectionLost st r₁).1.handlers = []
    ∧ connectionLost (connectionLost st r₁).1 r₂ = ((connectionLost st r₁).1, []) := by
  have hmain : connectionLost st r₁
      = ({ st with connected := false, reconnecting := true, handlers := [], retryTimer := true },
          st.handlers.map (fun x => Notice.rejected x.id (lostMsg st.host))
            ++ [Notice.emitted "reconnect", Notice.emitted ("debug:" ++ r₁),
              Notice.timerSet]) := by
    simp [connectionLost, hEnd, hRec, notifyLost_all_obj st.host st.handlers hObj]
  rw [hmain]
  exact ⟨rfl, rfl, rfl, by simp [connectionLost]⟩

/-- C6 witness: the statement at the concrete live state `cSt0` with two
pending object handlers. -/
theorem c6_connection_lost_idempotent_witness :
    (connectionLost cSt0 "close").2
        = cSt0.handlers.map (fun x => Notice.rejected x.id (lostMsg cSt0.host))
          ++ [Notice.emitted "reconnect", Notice.emitted ("debug:" ++ "close"),
            Notice.timerSet]
    ∧ (connectionLost cSt0 "close").1.retryTimer = true
    ∧ (connectionLost cSt0 "close").1.handlers = []
    ∧ connectionLost (connectionLost cSt0 "close").1 "end"
        = ((connectionLost cSt0 "close").1, []) :=
  c6_connection_lost_idempotent cSt0 "close" "end" rfl rfl (by decide)

/-- C7: with exactly one ring member, `sendCommand` routes every supported
command that has no custom router to that member, whatever the raw arguments
(and hence whatever the key argument and its hash). -/
theorem c7_single_member_routes_all (st : SMState) (fresh : Nat) (cmd : String)
    (rawArgs : List JSVal) (m : RingMember) (cd : CommandDesc)
    (hEnd : st.ended = false) (hQ : st.offlineQueue = none)
    (hM : st.ring.members = [m]) (hCmd : st.commands cmd = some cd)
    (hSup : cd.supported = true) (hR : cd.router = none) :
    sendCommand st fresh cmd rawArgs
      = Action.sendToServer fresh (some m.key) cmd (unwrapArgs rawArgs) := by
  simp [sendCommand, hEnd, hQ, hCmd, hSup, hR, hM, serverNameForKey,
    getCached_singleton st.ring m hM]

/-- C7 witness: the single-member manager `smSt` routes `GET` for an
arbitrary key to its only member. -/
theorem c7_single_member_routes_all_witness :
    sendCommand smSt 0 "GET" [JSVal.str "x"]
      = Action.sendToServer 0 (some "s1:6379") "GET" (unwrapArgs [JSVal.str "x"]) :=
  c7_single_member_routes_all smSt 0 "GET" [JSVal.str "x"]
    { key := "s1:6379" } { key := some 0 } rfl rfl rfl rfl rfl rfl

/-- C8: the concatenation of all bytes `write(cmd, pack, handler)` emits on
the stream equals the header frame followed, per argument in order, by the
length-prefixed bulk: buffers verbatim, text via its UTF-8 byte length. -/
theorem c8_wire_format (cmd : String) (pack : List Item) :
    ((writeChunks cmd pack).map Chunk.bytes).flatten
      = strBytes (writeHeader cmd pack.length) ++ (pack.map itemBulkBytes).flatten :=
  writeLoop_bytes pack (writeHeader cmd pack.length)

/-- C9: a decoder error on an incoming chunk emits a non-fatal error event
and destroys the socket, while the pending handler queue is left unchanged in
that step — no handle is resolved or rejected by the parse failure itself;
the handles are rejected only by the connection-lost path the destroy
triggers afterwards. -/
theorem c9_parse_error_keeps_queue (st : ConnState) (chunk e : String)
    (hErr : readerGet (st.reader ++ chunk) = Except.error e)
    (hEnd : st.ended = false) (hRec : st.reconnecting = false)
    (hObj : ∀ x ∈ st.handlers, x.kind = HKind.obj) :
    onData st chunk
        = ({ st with reader := st.reader ++ chunk },
            [Notice.connError ("Parser error: " ++ e), Notice.destroyed])
    ∧ (connectionLost { st with reader := st.reader ++ chunk } "close").2
        = st.handlers.map (fun x => Notice.rejected x.id (lostMsg st.host))
          ++ [Notice.emitted "reconnect", Notice.emitted ("debug:" ++ "close"),
            Notice.timerSet] := by
  constructor
  · simp [onData, hErr]
  · simp [connectionLost, hEnd, hRec, notifyLost_all_obj st.host st.handlers hObj]

/-- C9 witness: the statement at the concrete connected state `pSt0` with the
malformed chunk `"X"`. -/
theorem c9_parse_error_keeps_queue_witness :
    onData pSt0 "X"
        = ({ pSt0 with reader := pSt0.reader ++ "X" },
            [Notice.connError ("Parser error: " ++ "Protocol error, got unexpected type byte"),
              Notice.destroyed])
    ∧ (connectionLost { pSt0 with reader := pSt0.reader ++ "X" } "close").2
        = pSt0.handlers.map (fun x => Notice.rejected x.id (lostMsg pSt0.host))
          ++ [Notice.emitted "reconnect", Notice.emitted ("debug:" ++ "close"),
            Notice.timerSet] :=
  c9_parse_error_keeps_queue pSt0 "X" "Protocol error, got unexpected type byte"
    rfl rfl rfl (by decide)

/-- C10: `_connectionLost` notifies every pending handler of ConnectionLost
exactly once when every pending handler is a `{resolve, reject}` object (one
rejection per handler, in order); with a bare-function handler pending, the
function is first invoked with the error and the subsequent `.reject` access
throws, aborting the loop with the handler queue left in place. -/
theorem c10_lost_notification_per_handler (st₁ st₂ : ConnState) (f : Nat)
    (rest : List Handler)
    (hEnd₁ : st₁.ended = false) (hRec₁ : st₁.reconnecting = false)
    (hObj : ∀ x ∈ st₁.handlers, x.kind = HKind.obj)
    (hEnd₂ : st₂.ended = false) (hRec₂ : st₂.reconnecting = false)
    (hH : st₂.handlers = ⟨f, HKind.fn⟩ :: rest) :
    (connectionLost st₁ "close").2
        = st₁.handlers.map (fun x => Notice.rejected x.id (lostMsg st₁.host))
          ++ [Notice.emitted "reconnect", Notice.emitted ("debug:" ++ "close"),
            Notice.timerSet]
    ∧ (connectionLost st₂ "close").2 = [Notice.fnError f (lostMsg st₂.host), Notice.crash]
    ∧ (connectionLost st₂ "close").1.handlers = st₂.handlers := by
  refine ⟨?_, ?_, ?_⟩
  · simp [connectionLost, hEnd₁, hRec₁, notifyLost_all_obj st₁.host st₁.handlers hObj]
  · simp [connectionLost, hEnd₂, hRec₂, hH, notifyLost]
  · simp [connectionLost, hEnd₂, hRec₂, hH, notifyLost]

/-- C10 witness: the statement at the concrete states `cSt0` (object
handlers) and `fSt0` (a bare-function handler). -/
theorem c10_lost_notification_per_handler_witness :
    (connectionLost cSt0 "close").2
        = cSt0.handlers.map (fun x => Notice.rejected x.id (lostMsg cSt0.host))
          ++ [Notice.emitted "reconnect", Notice.emitted ("debug:" ++ "close"),
            Notice.timerSet]
    ∧ (connectionLost fSt0 "close").2 = [Notice.fnError 9 (lostMsg fSt0.host), Notice.crash]
    ∧ (connectionLost fSt0 "close").1.handlers = fSt0.handlers :=
  c10_lost_notification_per_handler cSt0 fSt0 9 [] rfl rfl (by decide) rfl rfl rfl

end RedisNextra
